import Mathlib

/-!
Shallow embedding of tinygrad's disk runtime (src/tinygrad/runtime/ops_disk.py):
the `DiskDevice` open/close lifecycle (`_might_open` / `_might_close`), the
`DiskBuffer` raw view (`_buf`), and the `DiskAllocator` operations
(`_alloc`, `_free`, `as_buffer`, `copyin`, `copyout`, `offset`).

Bytes are modelled as `List Nat`; the backing file / shared-memory contents are
one byte store `data`, of which the mmap covers the first `memLen` bytes
(an mmap of a file and reads through its file descriptor see the same bytes).
Python exceptions surface as an `Err` value; note that `_might_open` and
`_might_close` mutate `self` before any exception can be raised, so the
operations return the mutated state together with an optional error.
-/

namespace OpsDisk

/-- The exceptions the code can raise, by site:
`CapacityExceeded` is the `assert size <= self.size` in `_might_open`;
`NotOpen` is the `assert self.device.mem is not None` in `DiskBuffer._buf`
(also standing for the `AttributeError` when `mem` was never assigned);
`ViewReleased` is the `ValueError` CPython raises when a released
shared-memory `memoryview` is used after `shm.close()`;
`LengthMismatch` is the `ValueError` from a `memoryview` slice assignment of
the wrong length; `MadviseFailed` is an uncaught error from
`self.mem.madvise(MADV_HUGEPAGE)` (an `OSError`, or the `AttributeError` when
`mem` is a shared-memory `memoryview`, which has no `madvise`);
`BadFileDescriptor` is the `OSError` from `io.FileIO` on a closed fd. -/
inductive Err where
  | CapacityExceeded
  | NotOpen
  | ViewReleased
  | LengthMismatch
  | MadviseFailed
  | BadFileDescriptor
deriving DecidableEq, Repr

/-- Platform facts the code branches on: `OSX`, whether `mmap.MADV_HUGEPAGE`
exists (`getattr(mmap, "MADV_HUGEPAGE", None) is not None`), and whether
`madvise(MADV_HUGEPAGE)` on an `mmap` object succeeds on this kernel. -/
structure Platform where
  osx : Bool
  hasMadvHugepage : Bool
  madviseOk : Bool
deriving DecidableEq, Repr

/-- State of one `DiskDevice`.  `isShm` records whether the device name has
the `disk:shm:` prefix (fixed at construction).  `size` is `self.size`
(`None` until open, reset to `None` on close), `count` is `self.count`
(a Python int, so it can go negative).  `data` holds the backing file's (or
shared-memory segment's) bytes; `memLen` is the length of the mapping taken
at open time; `memSet` is whether the `mem` attribute has ever been assigned
(it is never deleted or set to `None`); `memReleased` is whether the
shared-memory view behind `mem` has been released by `shm.close()`.
`hasShm` / `hasFd` model `hasattr(self, "shm")` / `hasattr(self, "fd")`
(attributes are assigned but never deleted); `shmOpen` / `fdOpen` record
whether the OS handle behind them is still open. -/
structure DiskDevice where
  isShm : Bool
  size : Option Nat
  count : Int
  data : List Nat
  memSet : Bool
  memReleased : Bool
  memLen : Nat
  hasShm : Bool
  hasFd : Bool
  shmOpen : Bool
  fdOpen : Bool
deriving DecidableEq, Repr

/-- `DiskDevice.__init__`: `self.size = None`, `self.count = 0`; no `mem`,
`fd` or `shm` attribute exists yet.  `file` is whatever bytes the backing
file already holds on disk (irrelevant for shared memory, which is created
fresh at open). -/
def initDevice (isShm : Bool) (file : List Nat) : DiskDevice :=
  { isShm := isShm, size := none, count := 0, data := file,
    memSet := false, memReleased := false, memLen := 0,
    hasShm := false, hasFd := false, shmOpen := false, fdOpen := false }

/-- `DiskBuffer`: a (device, size, offset) triple.  `dev` is an identifier
standing for the Python reference to the shared `DiskDevice` object. -/
structure DiskBuffer where
  dev : Nat
  size : Nat
  offset : Nat
deriving DecidableEq, Repr

/-- `DiskDevice._might_open(size)`: unconditionally `self.count += 1`, then
`assert self.size is None or size <= self.size` (`CapacityExceeded`), then
return early if already open.  On the opening transition: set `self.size`,
then for `shm:` names create a fresh zero-filled shared-memory segment and
take `self.mem = self.shm.buf` (a `memoryview`); otherwise open/create the
file (the `O_DIRECT` attempt and its buffered fallback are not observable
here), extend it with zeros if shorter than `size` (`os.ftruncate`), and map
its first `size` bytes writably.  Finally, if `mmap.MADV_HUGEPAGE` exists,
call `self.mem.madvise(...)` with no exception handling: for shared memory
`mem` is a `memoryview` without `madvise`, so this always raises; for a file
mapping it raises whenever the kernel refuses the advice. -/
def mightOpen (p : Platform) (n : Nat) (d : DiskDevice) : DiskDevice × Option Err :=
  match d.size with
  | some s =>
    if n ≤ s then ({ d with count := d.count + 1 }, none)
    else ({ d with count := d.count + 1 }, some Err.CapacityExceeded)
  | none =>
    if d.isShm then
      ({ d with count := d.count + 1, size := some n, hasShm := true, shmOpen := true,
                data := List.replicate n 0,
                memSet := true, memReleased := false, memLen := n },
       if p.hasMadvHugepage then some Err.MadviseFailed else none)
    else
      ({ d with count := d.count + 1, size := some n, hasFd := true, fdOpen := true,
                data := if d.data.length < n
                        then d.data ++ List.replicate (n - d.data.length) 0
                        else d.data,
                memSet := true, memReleased := false, memLen := n },
       if p.hasMadvHugepage && !p.madviseOk then some Err.MadviseFailed else none)

/-- `DiskDevice._might_close()`: unconditionally `self.count -= 1` (there is
no check that the count is positive and no exception is raised); only when
the count lands exactly on 0: for shared memory, `shm.close()` (which
releases the exported `mem` view and unmaps) then `shm.unlink()` (destroying
the segment and its bytes); otherwise, if a `fd` attribute exists,
`os.close(self.fd)`; in both cases `self.size = None`.  The `mem`, `fd` and
`shm` attributes themselves are never removed, and a file-backed mapping is
never unmapped. -/
def mightClose (d : DiskDevice) : DiskDevice :=
  if d.count - 1 = 0 then
    if d.hasShm then
      { d with count := d.count - 1, shmOpen := false, memReleased := true,
               data := [], size := none }
    else if d.hasFd then
      { d with count := d.count - 1, fdOpen := false, size := none }
    else
      { d with count := d.count - 1, size := none }
  else { d with count := d.count - 1 }

/-- Elements of `l` in positions `[s, t)`, clamped to the list (Python slice
semantics). -/
def listSlice (s t : Nat) (l : List Nat) : List Nat := (l.drop s).take (t - s)

/-- Start of the byte range `memoryview(mem)[offset : offset+size]` covers
inside the mapping, after Python's slice clamping. -/
def viewStart (d : DiskDevice) (b : DiskBuffer) : Nat := min b.offset d.memLen

/-- End of the byte range `memoryview(mem)[offset : offset+size]` covers
inside the mapping, after Python's slice clamping. -/
def viewStop (d : DiskDevice) (b : DiskBuffer) : Nat := min (b.offset + b.size) d.memLen

/-- The checks `DiskBuffer._buf` performs before a view is produced: the
`assert self.device.mem is not None` (mem attribute never assigned fails the
same way), and CPython's rejection of a released shared-memory view. -/
def bufCheck (d : DiskDevice) : Option Err :=
  if !d.memSet then some Err.NotOpen
  else if d.memReleased then some Err.ViewReleased
  else none

/-- `DiskBuffer._buf` / `DiskAllocator.as_buffer`: return
`memoryview(self.device.mem)[self.offset : self.offset + self.size]`.  The
slice is clamped to the mapping length; no bounds validation is done. -/
def asBuffer (d : DiskDevice) (b : DiskBuffer) : Except Err (List Nat) :=
  match bufCheck d with
  | some e => Except.error e
  | none => Except.ok (listSlice (viewStart d b) (viewStop d b) d.data)

/-- `DiskAllocator.copyin(dest, src)`: `dest._buf()[:] = src`.  A memoryview
slice assignment requires the source length to equal the view length and
overwrites the viewed bytes of the backing store in place. -/
def copyin (d : DiskDevice) (dest : DiskBuffer) (src : List Nat) : Except Err DiskDevice :=
  match bufCheck d with
  | some e => Except.error e
  | none =>
    let s := viewStart d dest
    let t := viewStop d dest
    if src.length = t - s then
      Except.ok { d with data := d.data.take s ++ src ++ d.data.drop t }
    else Except.error Err.LengthMismatch

/-- `DiskAllocator.copyout(dest, src)`: on OSX, when the device has a `fd`
attribute, seek to `src.offset` in a fresh non-closing handle over the same
descriptor and `readinto(dest)` (reading at most `len(dest)` bytes, fewer at
end of file, leaving the rest of `dest` unchanged); otherwise
`dest[:] = src._buf()`, which requires equal lengths.  `dest` is the
destination buffer's previous contents; the result is its new contents. -/
def copyout (p : Platform) (d : DiskDevice) (dest : List Nat) (src : DiskBuffer) :
    Except Err (List Nat) :=
  if p.osx && d.hasFd then
    if d.fdOpen then
      let r := (d.data.drop src.offset).take dest.length
      Except.ok (r ++ dest.drop r.length)
    else Except.error Err.BadFileDescriptor
  else
    match bufCheck d with
    | some e => Except.error e
    | none =>
      let v := listSlice (viewStart d src) (viewStop d src) d.data
      if dest.length = v.length then Except.ok v else Except.error Err.LengthMismatch

/-- `DiskAllocator.offset(buf, size, offset)`: a fresh `DiskBuffer` over the
same device with the given absolute size and offset. -/
def DiskAllocator.offset (buf : DiskBuffer) (sz off : Nat) : DiskBuffer :=
  { dev := buf.dev, size := sz, offset := off }

/-- An allocator call on the device: `_alloc(size, ...)` triggers
`_might_open(size)`; `_free(buf, ...)` triggers `_might_close()` (and does
not inspect the buffer). -/
inductive Op where
  | alloc (n : Nat)
  | free
deriving DecidableEq, Repr

/-- One allocator call applied to the device state.  `_might_close` never
raises. -/
def step (p : Platform) (d : DiskDevice) : Op → DiskDevice × Option Err
  | Op.alloc n => mightOpen p n d
  | Op.free => (mightClose d, none)

/-- A sequence of allocator calls; a raised exception propagates to the
caller, aborting the sequence with the state mutated so far. -/
def run (p : Platform) (d : DiskDevice) : List Op → DiskDevice × Option Err
  | [] => (d, none)
  | op :: t =>
    match step p d op with
    | (d1, none) => run p d1 t
    | (d1, some e) => (d1, some e)

/-- Number of `alloc` calls in a sequence. -/
def countAllocs : List Op → Nat
  | [] => 0
  | Op.alloc _ :: t => countAllocs t + 1
  | Op.free :: t => countAllocs t

/-- Number of `free` calls in a sequence. -/
def countFrees : List Op → Nat
  | [] => 0
  | Op.alloc _ :: t => countFrees t
  | Op.free :: t => countFrees t + 1

/-- Starting from count `c`, no prefix of the sequence drives the count
below 0 (every prefix has at least as many allocs as frees). -/
def noUnderflowB (c : Int) : List Op → Bool
  | [] => true
  | Op.alloc _ :: t => noUnderflowB (c + 1) t
  | Op.free :: t => decide (1 ≤ c) && noUnderflowB (c - 1) t

/-- A platform with no `MADV_HUGEPAGE` and no OSX readback quirk. -/
def platPlain : Platform := { osx := false, hasMadvHugepage := false, madviseOk := true }

/-- macOS: no `MADV_HUGEPAGE`, `copyout` takes the file-descriptor path. -/
def platMac : Platform := { osx := true, hasMadvHugepage := false, madviseOk := true }

/-- Linux with `mmap.MADV_HUGEPAGE` present and the kernel accepting the
advice on `mmap` objects. -/
def platLinux : Platform := { osx := false, hasMadvHugepage := true, madviseOk := true }

/-- Linux with `mmap.MADV_HUGEPAGE` present but the kernel rejecting the
advice on this mapping (e.g. a file-backed mapping on an older kernel). -/
def platLinuxNoMadv : Platform := { osx := false, hasMadvHugepage := true, madviseOk := false }

/-- A file-backed device after a first `allocate(2)` on `platPlain`. -/
def devOpen2 : DiskDevice := (run platPlain (initDevice false []) [Op.alloc 2]).1

/-- A file-backed device after a first `allocate(4)` on `platPlain`. -/
def devOpen4 : DiskDevice := (run platPlain (initDevice false []) [Op.alloc 4]).1

/-- A file-backed device after a first `allocate(4)` on macOS. -/
def devMacOpen4 : DiskDevice := (run platMac (initDevice false []) [Op.alloc 4]).1

/-- An open file-backed device whose mapping covers 2 bytes, used to
exercise a slice reaching past the end of the mapping. -/
def devClamp : DiskDevice :=
  { isShm := false, size := some 2, count := 1, data := [5, 6],
    memSet := true, memReleased := false, memLen := 2, hasShm := false, hasFd := true,
    shmOpen := false, fdOpen := true }

/-- Branch equation: `_might_open` on an already-open region within
capacity. -/
theorem mightOpen_reopen_ok (p : Platform) (n : Nat) (d : DiskDevice) (s : Nat)
    (hs : d.size = some s) (hn : n ≤ s) :
    mightOpen p n d = ({ d with count := d.count + 1 }, none) := by
  unfold mightOpen
  rw [hs]
  simp [hn]

/-- Branch equation: `_might_open` on an already-open region beyond
capacity raises `CapacityExceeded` (with the count already incremented). -/
theorem mightOpen_reopen_fail (p : Platform) (n : Nat) (d : DiskDevice) (s : Nat)
    (hs : d.size = some s) (hn : ¬ n ≤ s) :
    mightOpen p n d = ({ d with count := d.count + 1 }, some Err.CapacityExceeded) := by
  unfold mightOpen
  rw [hs]
  simp [hn]

/-- Branch equation: the opening transition for a shared-memory device. -/
theorem mightOpen_shm (p : Platform) (n : Nat) (d : DiskDevice)
    (hs : d.size = none) (hm : d.isShm = true) :
    mightOpen p n d =
      ({ d with count := d.count + 1, size := some n, hasShm := true, shmOpen := true,
                data := List.replicate n 0,
                memSet := true, memReleased := false, memLen := n },
       if p.hasMadvHugepage then some Err.MadviseFailed else none) := by
  unfold mightOpen
  rw [hs]
  simp [hm]

/-- Branch equation: the opening transition for a file-backed device. -/
theorem mightOpen_file (p : Platform) (n : Nat) (d : DiskDevice)
    (hs : d.size = none) (hm : d.isShm = false) :
    mightOpen p n d =
      ({ d with count := d.count + 1, size := some n, hasFd := true, fdOpen := true,
                data := if d.data.length < n
                        then d.data ++ List.replicate (n - d.data.length) 0
                        else d.data,
                memSet := true, memReleased := false, memLen := n },
       if p.hasMadvHugepage && !p.madviseOk then some Err.MadviseFailed else none) := by
  unfold mightOpen
  rw [hs]
  simp [hm]

/-- Branch equation: `_might_close` when the count does not land on 0. -/
theorem mightClose_noClose (d : DiskDevice) (h : ¬ d.count - 1 = 0) :
    mightClose d = { d with count := d.count - 1 } := by
  unfold mightClose
  simp [h]

/-- Branch equation: the closing transition for a shared-memory device. -/
theorem mightClose_shm (d : DiskDevice) (h : d.count - 1 = 0) (hm : d.hasShm = true) :
    mightClose d = { d with count := d.count - 1, shmOpen := false,
                            memReleased := true, data := [], size := none } := by
  unfold mightClose
  simp [h, hm]

/-- Branch equation: the closing transition for a device with a `fd`
attribute. -/
theorem mightClose_fd (d : DiskDevice) (h : d.count - 1 = 0)
    (hm : d.hasShm = false) (hf : d.hasFd = true) :
    mightClose d = { d with count := d.count - 1, fdOpen := false, size := none } := by
  unfold mightClose
  simp [h, hm, hf]

/-- Branch equation: the closing transition when neither handle attribute
exists. -/
theorem mightClose_bare (d : DiskDevice) (h : d.count - 1 = 0)
    (hm : d.hasShm = false) (hf : d.hasFd = false) :
    mightClose d = { d with count := d.count - 1, size := none } := by
  unfold mightClose
  simp [h, hm, hf]

/-- `_might_open` always increments the count, whether or not it raises. -/
theorem mightOpen_count (p : Platform) (n : Nat) (d : DiskDevice) :
    (mightOpen p n d).1.count = d.count + 1 := by
  cases hs : d.size with
  | some s =>
    by_cases hn : n ≤ s
    · rw [mightOpen_reopen_ok p n d s hs hn]
    · rw [mightOpen_reopen_fail p n d s hs hn]
  | none =>
    cases hm : d.isShm with
    | true => rw [mightOpen_shm p n d hs hm]
    | false => rw [mightOpen_file p n d hs hm]

/-- `_might_close` always decrements the count. -/
theorem mightClose_count (d : DiskDevice) :
    (mightClose d).count = d.count - 1 := by
  by_cases h : d.count - 1 = 0
  · cases hm : d.hasShm with
    | true => rw [mightClose_shm d h hm]
    | false =>
      cases hf : d.hasFd with
      | true => rw [mightClose_fd d h hm hf]
      | false => rw [mightClose_bare d h hm hf]
  · rw [mightClose_noClose d h]

/-- Over an exception-free sequence of allocator calls the count moves by
exactly the number of allocs minus the number of frees. -/
theorem run_count (p : Platform) : ∀ (ops : List Op) (d s : DiskDevice),
    run p d ops = (s, none) →
    s.count = d.count + (countAllocs ops : Int) - (countFrees ops : Int) := by
  intro ops
  induction ops with
  | nil =>
    intro d s h
    simp only [run, Prod.mk.injEq] at h
    rw [← h.1]
    simp [countAllocs, countFrees]
  | cons op t ih =>
    intro d s h
    cases op with
    | alloc n =>
      unfold run at h
      simp only [step] at h
      rcases he : mightOpen p n d with ⟨d1, e⟩
      rw [he] at h
      cases e with
      | none =>
        have hr := ih d1 s h
        have hc : d1.count = d.count + 1 := by
          have := mightOpen_count p n d
          rw [he] at this
          exact this
        simp only [countAllocs, countFrees] at *
        omega
      | some err => simp at h
    | free =>
      unfold run at h
      simp only [step] at h
      have hr := ih (mightClose d) s h
      have hc := mightClose_count d
      simp only [countAllocs, countFrees] at *
      omega

/-- The state invariant of a `DiskDevice` that has only ever seen balanced
allocator traffic: the count never went negative, the capacity is set exactly
while the count is positive, OS handles are closed when the count is 0, and
the shm/fd attributes agree with the device's mode. -/
def Inv (d : DiskDevice) : Prop :=
  0 ≤ d.count ∧
  (d.size.isSome ↔ 0 < d.count) ∧
  (d.count = 0 → d.fdOpen = false ∧ d.shmOpen = false) ∧
  (d.hasShm = true → d.isShm = true) ∧
  (d.hasFd = true → d.isShm = false) ∧
  (d.shmOpen = true → d.hasShm = true) ∧
  (d.fdOpen = true → d.hasFd = true)

/-- A freshly constructed device satisfies the invariant. -/
theorem inv_initDevice (isShm : Bool) (file : List Nat) :
    Inv (initDevice isShm file) := by
  simp [Inv, initDevice]

/-- A successful `_might_open` preserves the invariant. -/
theorem mightOpen_inv (p : Platform) (n : Nat) (d : DiskDevice) (hI : Inv d)
    (hok : (mightOpen p n d).2 = none) : Inv (mightOpen p n d).1 := by
  obtain ⟨h1, h2, h3, h4, h5, h6, h7⟩ := hI
  cases hs : d.size with
  | some s =>
    rw [hs] at h2
    simp only [Option.isSome_some, true_iff] at h2
    by_cases hn : n ≤ s
    · rw [mightOpen_reopen_ok p n d s hs hn]
      refine ⟨by simp; omega, by simp [hs]; omega, by simp; omega, h4, h5, h6, h7⟩
    · rw [mightOpen_reopen_fail p n d s hs hn] at hok
      simp at hok
  | none =>
    have hc0 : d.count = 0 := by
      rw [hs] at h2
      simp at h2
      omega
    cases hm : d.isShm with
    | true =>
      rw [mightOpen_shm p n d hs hm]
      have hfd : d.hasFd = false := by
        cases hf : d.hasFd
        · rfl
        · exact absurd hm (by simp [h5 hf])
      refine ⟨by simp; omega, by simp; omega, by simp; omega,
        fun _ => hm, by simp [hfd], fun _ => rfl, h7⟩
    | false =>
      rw [mightOpen_file p n d hs hm]
      have hsh : d.hasShm = false := by
        cases hh : d.hasShm
        · rfl
        · exact absurd (h4 hh) (by simp [hm])
      refine ⟨by simp; omega, by simp; omega, by simp; omega,
        by simp [hsh], fun _ => hm, h6, fun _ => rfl⟩

/-- `_might_close` from a positive count preserves the invariant. -/
theorem mightClose_inv (d : DiskDevice) (hI : Inv d) (hc : 1 ≤ d.count) :
    Inv (mightClose d) := by
  obtain ⟨h1, h2, h3, h4, h5, h6, h7⟩ := hI
  by_cases hz : d.count - 1 = 0
  · cases hm : d.hasShm with
    | true =>
      rw [mightClose_shm d hz hm]
      have hfo : d.fdOpen = false := by
        cases ho : d.fdOpen
        · rfl
        · exact absurd (h5 (h7 ho)) (by simp [h4 hm])
      refine ⟨by simp; omega, by simp; omega, fun _ => by simp [hfo], h4, h5, by simp, ?_⟩
      intro ho
      exact h7 ho
    | false =>
      have hso : d.shmOpen = false := by
        cases ho : d.shmOpen
        · rfl
        · exact absurd (h6 ho) (by simp [hm])
      cases hf : d.hasFd with
      | true =>
        rw [mightClose_fd d hz hm hf]
        refine ⟨by simp; omega, by simp; omega, fun _ => by simp [hso], h4, h5, ?_, by simp⟩
        intro ho
        exact h6 ho
      | false =>
        have hfo : d.fdOpen = false := by
          cases ho : d.fdOpen
          · rfl
          · exact absurd (h7 ho) (by simp [hf])
        rw [mightClose_bare d hz hm hf]
        exact ⟨by simp; omega, by simp; omega, fun _ => by simp [hso, hfo], h4, h5, h6, h7⟩
  · rw [mightClose_noClose d hz]
    refine ⟨by simp; omega, ?_, by simp; omega, h4, h5, h6, h7⟩
    have hsz : d.size.isSome := h2.mpr (by omega)
    simp only [hsz]
    simp
    omega

/-- Any exception-free run that never drives the count below zero preserves
the invariant. -/
theorem run_inv (p : Platform) : ∀ (ops : List Op) (d s : DiskDevice),
    Inv d → noUnderflowB d.count ops = true → run p d ops = (s, none) → Inv s := by
  intro ops
  induction ops with
  | nil =>
    intro d s hI _ h
    simp only [run, Prod.mk.injEq] at h
    rw [← h.1]
    exact hI
  | cons op t ih =>
    intro d s hI hnu h
    cases op with
    | alloc n =>
      unfold run at h
      simp only [step] at h
      rcases he : mightOpen p n d with ⟨d1, e⟩
      rw [he] at h
      cases e with
      | none =>
        have hI1 : Inv d1 := by
          have := mightOpen_inv p n d hI (by rw [he])
          rw [he] at this
          exact this
        have hc : d1.count = d.count + 1 := by
          have := mightOpen_count p n d
          rw [he] at this
          exact this
        refine ih d1 s hI1 ?_ h
        simp only [noUnderflowB] at hnu
        rw [hc]
        exact hnu
      | some err => simp at h
    | free =>
      unfold run at h
      simp only [step] at h
      simp only [noUnderflowB, Bool.and_eq_true, decide_eq_true_eq] at hnu
      have hI1 : Inv (mightClose d) := mightClose_inv d hI hnu.1
      refine ih (mightClose d) s hI1 ?_ h
      rw [mightClose_count d]
      exact hnu.2

/-- `_might_close` on a device whose count is 0 just decrements the count
to -1: the `count == 0` teardown test sees -1 and nothing else happens. -/
theorem mightClose_at_zero (d : DiskDevice) (h : d.count = 0) :
    mightClose d = { d with count := -1 } := by
  unfold mightClose
  rw [h]
  norm_num

/-- Claim C1, counterexample: on a fresh device (count 0), `_free` raises
nothing (the error component is `none`) and leaves the count at -1, so the
claimed `InvalidState` failure does not happen. -/
theorem claim1_counterexample :
    (step platPlain (initDevice false []) Op.free).2 = none ∧
    (step platPlain (initDevice false []) Op.free).1.count = -1 := by decide

/-- Claim C1, amended: calling free (release) when the reference count is
already 0 does not fail: `_might_close` has no refcount guard and raises no
error; it silently decrements the count to -1 and runs no teardown. -/
theorem claim1_free_at_zero_is_silent (d : DiskDevice) (h : d.count = 0) :
    mightClose d = { d with count := -1 } :=
  mightClose_at_zero d h

/-- Claim C1, witness. -/
theorem claim1_witness :
    mightClose (initDevice false []) = { initDevice false [] with count := -1 } :=
  claim1_free_at_zero_is_silent (initDevice false []) rfl

/-- Claim C2, counterexample: open a file-backed region, free it (count back
to 0), then call `as_buffer` on the slice issued during that session: the
call succeeds against the stale mapping instead of failing with `NotOpen`,
because `_might_close` never clears `mem`. -/
theorem claim2_counterexample :
    (run platPlain (initDevice false []) [Op.alloc 2, Op.free]).2 = none ∧
    asBuffer (run platPlain (initDevice false []) [Op.alloc 2, Op.free]).1
        { dev := 0, size := 2, offset := 0 } = Except.ok [0, 0] :=
  ⟨by decide, rfl⟩

/-- Claim C2, amended: after the last matching free of a session on a
file-backed region, operations on a previously-issued slice do NOT fail
with `NotOpen`: the `mem` attribute survives the close (and the mmap is
never unmapped), so the raw view is still produced from the stale mapping.
`NotOpen` arises only on a device whose `mem` was never assigned. -/
theorem claim2_stale_view_not_notopen (d : DiskDevice) (b : DiskBuffer)
    (h1 : d.memSet = true) (h2 : d.memReleased = false) (h3 : d.hasShm = false) :
    asBuffer (mightClose d) b =
      Except.ok (listSlice (viewStart d b) (viewStop d b) d.data) := by
  by_cases hz : d.count - 1 = 0
  · cases hf : d.hasFd with
    | false =>
      rw [mightClose_bare d hz h3 hf]
      simp [asBuffer, bufCheck, viewStart, viewStop, h1, h2]
    | true =>
      rw [mightClose_fd d hz h3 hf]
      simp [asBuffer, bufCheck, viewStart, viewStop, h1, h2]
  · rw [mightClose_noClose d hz]
    simp [asBuffer, bufCheck, viewStart, viewStop, h1, h2]

/-- Claim C2, witness. -/
theorem claim2_witness :
    asBuffer (mightClose devOpen2) { dev := 0, size := 2, offset := 0 } =
      Except.ok (listSlice (viewStart devOpen2 { dev := 0, size := 2, offset := 0 })
        (viewStop devOpen2 { dev := 0, size := 2, offset := 0 }) devOpen2.data) :=
  claim2_stale_view_not_notopen devOpen2 { dev := 0, size := 2, offset := 0 }
    (by decide) (by decide) (by decide)

/-- Claim C3, counterexample: a single free on a fresh device reaches count
-1 (refuting `refcount >= 0` over all allocate/free sequences), and after a
balanced open/close the `mem` attribute is still set at count 0 (the mapping
object is retained, refuting `mapping exists iff refcount > 0`). -/
theorem claim3_counterexample :
    ((run platPlain (initDevice false []) [Op.free]).2 = none ∧
     (run platPlain (initDevice false []) [Op.free]).1.count = -1) ∧
    ((run platPlain (initDevice false []) [Op.alloc 2, Op.free]).2 = none ∧
     (run platPlain (initDevice false []) [Op.alloc 2, Op.free]).1.count = 0 ∧
     (run platPlain (initDevice false []) [Op.alloc 2, Op.free]).1.memSet = true) := by
  decide

/-- Claim C3, amended: in every state reachable by an exception-free
sequence of allocate/free calls in which no prefix has more frees than
allocates, the count is >= 0 and the capacity (`size`) is set iff the count
is > 0.  (The mapping object itself is retained after close, so the
spec's mapping-existence reading holds only for the capacity.) -/
theorem claim3_refcount_invariant (p : Platform) (isShm : Bool) (file : List Nat)
    (ops : List Op) (s : DiskDevice)
    (hnu : noUnderflowB 0 ops = true)
    (hr : run p (initDevice isShm file) ops = (s, none)) :
    0 ≤ s.count ∧ (s.size.isSome ↔ 0 < s.count) := by
  have hI := run_inv p ops (initDevice isShm file) s (inv_initDevice isShm file) hnu hr
  exact ⟨hI.1, hI.2.1⟩

/-- Claim C3, witness. -/
theorem claim3_witness :
    0 ≤ (run platPlain (initDevice false []) [Op.alloc 3, Op.free]).1.count ∧
    ((run platPlain (initDevice false []) [Op.alloc 3, Op.free]).1.size.isSome ↔
      0 < (run platPlain (initDevice false []) [Op.alloc 3, Op.free]).1.count) :=
  claim3_refcount_invariant platPlain false [] [Op.alloc 3, Op.free] _ (by decide) rfl

/-- Claim C4, counterexample: `[free, alloc 1]` has equal numbers of
allocates and frees and raises nothing, yet the final state has the capacity
set (`size = some 1`): the initial free underflows the count to -1, so the
balanced sequence ends at count 0 with the region open. -/
theorem claim4_counterexample :
    countAllocs [Op.free, Op.alloc 1] = countFrees [Op.free, Op.alloc 1] ∧
    (run platPlain (initDevice false []) [Op.free, Op.alloc 1]).2 = none ∧
    (run platPlain (initDevice false []) [Op.free, Op.alloc 1]).1.size = some 1 := by
  decide

/-- Claim C4, amended: for every exception-free sequence with equal numbers
of allocates and frees in which no prefix has more frees than allocates, the
final state has the capacity unset and the OS handles closed (fd closed, shm
unlinked); the stale `mem` reference, however, is retained. -/
theorem claim4_balanced_closes (p : Platform) (isShm : Bool) (file : List Nat)
    (ops : List Op) (s : DiskDevice)
    (hnu : noUnderflowB 0 ops = true)
    (hb : countAllocs ops = countFrees ops)
    (hr : run p (initDevice isShm file) ops = (s, none)) :
    s.size = none ∧ s.fdOpen = false ∧ s.shmOpen = false := by
  have hI := run_inv p ops (initDevice isShm file) s (inv_initDevice isShm file) hnu hr
  have hc := run_count p ops (initDevice isShm file) s hr
  have hc0 : s.count = 0 := by
    have h0 : (initDevice isShm file).count = 0 := rfl
    rw [h0] at hc
    omega
  obtain ⟨h1, h2, h3, _⟩ := hI
  refine ⟨?_, (h3 hc0).1, (h3 hc0).2⟩
  have hns : ¬ s.size.isSome = true := by
    rw [h2]
    omega
  cases hs : s.size with
  | none => rfl
  | some v =>
    rw [hs] at hns
    simp at hns

/-- Claim C4, witness. -/
theorem claim4_witness :
    (run platPlain (initDevice false []) [Op.alloc 2, Op.free]).1.size = none ∧
    (run platPlain (initDevice false []) [Op.alloc 2, Op.free]).1.fdOpen = false ∧
    (run platPlain (initDevice false []) [Op.alloc 2, Op.free]).1.shmOpen = false :=
  claim4_balanced_closes platPlain false [] [Op.alloc 2, Op.free] _
    (by decide) (by decide) rfl

/-- Claim C5: on a region open with capacity `s1`, an allocate of `n > s1`
fails with `CapacityExceeded` (the assert in `_might_open`), while an
allocate of `n <= s1` succeeds and leaves the capacity at `s1`. -/
theorem claim5_capacity_pinned (p : Platform) (d : DiskDevice) (s1 n : Nat)
    (h : d.size = some s1) :
    (s1 < n → (mightOpen p n d).2 = some Err.CapacityExceeded) ∧
    (n ≤ s1 → (mightOpen p n d).2 = none ∧ (mightOpen p n d).1.size = some s1) := by
  constructor
  · intro hlt
    rw [mightOpen_reopen_fail p n d s1 h (by omega)]
  · intro hle
    rw [mightOpen_reopen_ok p n d s1 h hle]
    exact ⟨rfl, by simpa using h⟩

/-- Claim C5, witness. -/
theorem claim5_witness :
    (mightOpen platPlain 5 devOpen4).2 = some Err.CapacityExceeded ∧
    ((mightOpen platPlain 3 devOpen4).2 = none ∧
     (mightOpen platPlain 3 devOpen4).1.size = some 4) :=
  ⟨(claim5_capacity_pinned platPlain devOpen4 4 5 (by decide)).1 (by decide),
   (claim5_capacity_pinned platPlain devOpen4 4 3 (by decide)).2 (by decide)⟩

/-- Claim C7 (code bug): the huge-page hint is not best-effort.  Whenever
`mmap.MADV_HUGEPAGE` exists, `_might_open` calls `self.mem.madvise(hp)` with
no exception handling; for a shared-memory region `mem` is a `memoryview`,
which has no `madvise` at all, so the first open always raises
(`AttributeError`), and for a file-backed region a kernel that rejects the
advice makes the open raise (`OSError`) as well. -/
theorem claim7_hint_failure_fails_open :
    (mightOpen platLinux 16 (initDevice true [])).2 = some Err.MadviseFailed ∧
    (mightOpen platLinuxNoMadv 16 (initDevice false [])).2 = some Err.MadviseFailed := by
  decide

/-- Claim C8: `DiskAllocator.offset(base, size, offset)` builds a fresh
slice over the same device whose offset is the given absolute offset and
whose size is the given size; the base slice is not modified. -/
theorem claim8_offset_absolute (b : DiskBuffer) (sz off : Nat) :
    DiskAllocator.offset b sz off = { dev := b.dev, size := sz, offset := off } :=
  rfl

/-- Claim C10: for a slice reaching past the end of the mapping
(`offset + size > memLen`), `as_buffer` silently returns a clamped,
shorter-than-requested view with no error, and a subsequent `copyin` of
`size` bytes fails with a length mismatch, not an out-of-bounds error. -/
theorem claim10_view_clamped (d : DiskDevice) (b : DiskBuffer)
    (hm : d.memSet = true) (hrel : d.memReleased = false)
    (ho : b.offset ≤ d.memLen) (hov : d.memLen < b.offset + b.size)
    (hml : d.memLen ≤ d.data.length) :
    (∃ v, asBuffer d b = Except.ok v ∧
      v.length = d.memLen - b.offset ∧ v.length < b.size) ∧
    ∀ src : List Nat, src.length = b.size →
      copyin d b src = Except.error Err.LengthMismatch := by
  have hs : viewStart d b = b.offset := min_eq_left ho
  have ht : viewStop d b = d.memLen := min_eq_right (by omega)
  have hvl : (listSlice (viewStart d b) (viewStop d b) d.data).length
      = d.memLen - b.offset := by
    rw [hs, ht]
    unfold listSlice
    rw [List.length_take, List.length_drop]
    omega
  constructor
  · refine ⟨listSlice (viewStart d b) (viewStop d b) d.data, ?_, hvl, ?_⟩
    · unfold asBuffer bufCheck
      simp [hm, hrel]
    · rw [hvl]
      omega
  · intro src hsrc
    unfold copyin bufCheck
    simp only [hm, hrel, Bool.not_true, Bool.false_eq_true, if_false, ite_false]
    rw [hs, ht, hsrc]
    have : ¬ b.size = d.memLen - b.offset := by omega
    simp [this]

/-- Claim C10, witness. -/
theorem claim10_witness :
    (∃ v, asBuffer devClamp { dev := 0, size := 3, offset := 1 } = Except.ok v ∧
      v.length = devClamp.memLen - 1 ∧ v.length < 3) ∧
    copyin devClamp { dev := 0, size := 3, offset := 1 } [1, 2, 3] =
      Except.error Err.LengthMismatch :=
  ⟨(claim10_view_clamped devClamp { dev := 0, size := 3, offset := 1 }
      (by decide) (by decide) (by decide) (by decide) (by decide)).1,
   (claim10_view_clamped devClamp { dev := 0, size := 3, offset := 1 }
      (by decide) (by decide) (by decide) (by decide) (by decide)).2 [1, 2, 3] rfl⟩

/-- Claim C9, counterexample: after an initial free at count 0 (count -1),
the balanced session `[alloc 1, alloc 1, free, free]` opens the region and
nevertheless closes it mid-session: the first of its frees brings the count
to exactly 0 and triggers teardown, so the capacity IS reset — refuting
"a region opened in such a session is never closed". -/
theorem claim9_counterexample :
    (run platPlain (initDevice false [])
        [Op.free, Op.alloc 1, Op.alloc 1, Op.free, Op.free]).2 = none ∧
    (run platPlain (initDevice false [])
        [Op.free, Op.alloc 1, Op.alloc 1, Op.free, Op.free]).1.size = none ∧
    (run platPlain (initDevice false [])
        [Op.free, Op.alloc 1, Op.alloc 1, Op.free, Op.free]).1.count = -1 := by
  decide

/-- Claim C9, amended: a free at count 0 raises nothing, runs no teardown
and leaves the count at -1; afterwards every exception-free balanced
allocate/free sequence returns the count to -1 rather than 0, and a session
of one allocate/free pair leaves the region open (capacity still set, fd
still open) because its final free lands on -1, not 0.  A nested session
(two allocates before a free) can still hit 0 on an inner free and close
the region. -/
theorem claim9_underflow_behavior (p : Platform) (d : DiskDevice) (ops : List Op)
    (s : DiskDevice) (n : Nat)
    (h0 : d.count = 0) (hb : countAllocs ops = countFrees ops)
    (hr : run p (mightClose d) ops = (s, none))
    (hsz : d.size = none) (hshm : d.isShm = false) (hmp : p.hasMadvHugepage = false) :
    mightClose d = { d with count := -1 } ∧
    s.count = -1 ∧
    ∃ s2, run p (mightClose d) [Op.alloc n, Op.free] = (s2, none) ∧
      s2.size = some n ∧ s2.count = -1 ∧ s2.fdOpen = true := by
  have hu : mightClose d = { d with count := -1 } := mightClose_at_zero d h0
  refine ⟨hu, ?_, ?_⟩
  · have hc := run_count p ops (mightClose d) s hr
    have hmc := mightClose_count d
    omega
  · have husz : (mightClose d).size = none := by rw [hu]; simpa using hsz
    have hushm : (mightClose d).isShm = false := by rw [hu]; simpa using hshm
    have e1 := mightOpen_file p n (mightClose d) husz hushm
    have huc : (mightClose d).count = -1 := by rw [hu]
    have e1ok : (mightOpen p n (mightClose d)).2 = none := by
      rw [e1, hmp]
      rfl
    have e1c : (mightOpen p n (mightClose d)).1.count = 0 := by
      rw [mightOpen_count p n (mightClose d), huc]
      norm_num
    have e2 := mightClose_noClose (mightOpen p n (mightClose d)).1 (by omega)
    refine ⟨mightClose (mightOpen p n (mightClose d)).1, ?_, ?_, ?_, ?_⟩
    · show run p (mightClose d) [Op.alloc n, Op.free] = _
      unfold run step
      rcases he : mightOpen p n (mightClose d) with ⟨d1, e⟩
      have : e = none := by rw [he] at e1ok; exact e1ok
      subst this
      simp only [run]
      rw [he]
      rfl
    · rw [e2]
      have : (mightOpen p n (mightClose d)).1.size = some n := by
        rw [e1]
      simpa using this
    · rw [e2]
      simp only [mightClose_count]
      omega
    · rw [e2]
      have : (mightOpen p n (mightClose d)).1.fdOpen = true := by
        rw [e1]
      simpa using this

/-- Claim C9, witness. -/
theorem claim9_witness :
    mightClose (initDevice false []) = { initDevice false [] with count := -1 } ∧
    (run platPlain (mightClose (initDevice false [])) [Op.alloc 1, Op.free]).1.count = -1 ∧
    ∃ s2, run platPlain (mightClose (initDevice false [])) [Op.alloc 2, Op.free] = (s2, none) ∧
      s2.size = some 2 ∧ s2.count = -1 ∧ s2.fdOpen = true :=
  claim9_underflow_behavior platPlain (initDevice false []) [Op.alloc 1, Op.free] _ 2
    rfl (by decide) rfl rfl rfl rfl

/-- Claim C6: for an open slice within the mapping and a byte string `B` of
the slice's size, `copyin` of `B` followed by `copyout` of the same slice
(no intervening close) returns exactly `B`, on every platform path: the OSX
file-descriptor readback path (which reads the backing bytes through the fd)
and the default mapped-view path. -/
theorem claim6_roundtrip (p : Platform) (d : DiskDevice) (b : DiskBuffer)
    (B dest : List Nat)
    (hm : d.memSet = true) (hrel : d.memReleased = false)
    (hml : d.memLen ≤ d.data.length) (hbd : b.offset + b.size ≤ d.memLen)
    (hB : B.length = b.size) (hdest : dest.length = b.size)
    (hfd : d.hasFd = true → d.fdOpen = true) :
    ∃ d2, copyin d b B = Except.ok d2 ∧ copyout p d2 dest b = Except.ok B := by
  have hoff : b.offset ≤ d.memLen := by omega
  have hodl : b.offset ≤ d.data.length := by omega
  have hs : viewStart d b = b.offset := min_eq_left hoff
  have ht : viewStop d b = b.offset + b.size := min_eq_left hbd
  have hbc : bufCheck d = none := by
    unfold bufCheck
    simp [hm, hrel]
  have htl : (d.data.take b.offset).length = b.offset := by
    rw [List.length_take]
    omega
  have harith : b.offset + b.size - b.offset = b.size := by omega
  have hci : copyin d b B =
      Except.ok { d with
        data := d.data.take b.offset ++ B ++ d.data.drop (b.offset + b.size) } := by
    unfold copyin
    rw [hbc]
    simp only [hs, ht, harith, hB]
    simp
  refine ⟨_, hci, ?_⟩
  have hdropD : (d.data.take b.offset ++ B ++ d.data.drop (b.offset + b.size)).drop b.offset
      = B ++ d.data.drop (b.offset + b.size) := by
    rw [List.append_assoc]
    exact List.drop_left' htl
  have htakeB : (B ++ d.data.drop (b.offset + b.size)).take b.size = B := by
    rw [← hB]
    exact List.take_left _ _
  have hdnil : dest.drop b.size = [] :=
    List.drop_eq_nil_of_le (by omega)
  unfold copyout
  cases hx : p.osx && d.hasFd with
  | true =>
    have hhf : d.hasFd = true := (Bool.and_eq_true _ _ |>.mp hx).2
    have hfo : d.fdOpen = true := hfd hhf
    simp only [hx, hfo]
    simp only [hdest, hdropD, htakeB, hdnil, ite_true, if_true]
    rw [hB, hdnil]
    simp
  | false =>
    simp only [hx]
    rw [show bufCheck { d with
        data := d.data.take b.offset ++ B ++ d.data.drop (b.offset + b.size) } = none from by
      unfold bufCheck
      simp [hm, hrel]]
    simp only [viewStart, viewStop, listSlice]
    simp only [min_eq_left hoff, min_eq_left hbd, harith]
    rw [hdropD, htakeB]
    simp [hdest, hB]

/-- Claim C6, witness (macOS fd path; the mapped-view path is the same
theorem at `platPlain`). -/
theorem claim6_witness :
    ∃ d2, copyin devMacOpen4 { dev := 0, size := 2, offset := 1 } [7, 8] = Except.ok d2 ∧
      copyout platMac d2 [0, 0] { dev := 0, size := 2, offset := 1 } = Except.ok [7, 8] :=
  claim6_roundtrip platMac devMacOpen4 { dev := 0, size := 2, offset := 1 } [7, 8] [0, 0]
    (by decide) (by decide) (by decide) (by decide) (by decide) (by decide)
    (fun _ => by decide)

end OpsDisk
